import Mathlib

/-!
Verification of the FreeWili serial protocol client (`freewili/serial.py`):
a shallow embedding of the command channel, the file-transfer protocol, the
session lifecycle and device discovery, with theorems checking the
natural-language specification against the embedded code.

Serial port effects (writes, reads, exceptions) are modelled by explicit
oracles: a function gives the value returned (or the exception raised) by the
n-th call to the corresponding `pyserial` primitive, and each embedded
operation returns the transcript of write calls it made together with its
Python-level outcome (`Ok`, `Err`, or an escaping exception).
-/

namespace FreeWili

/-- Outcome of a Python call that uses the `result` library: a returned `Ok`,
a returned `Err`, or a raised exception that escapes the function. -/
inductive PyOutcome (α : Type) where
  | ok : α → PyOutcome α
  | err : String → PyOutcome α
  | exn : String → PyOutcome α
  deriving DecidableEq, Repr

/-- One step of the rolling checksum loop in `send_file`:
`checksum += int.from_bytes(byte); if checksum & 0x8000: checksum ^= 2054;
checksum &= 0xFFFFFF`. -/
def checksum_step (checksum b : Nat) : Nat :=
  let c1 := checksum + b
  let c2 := if c1 &&& 0x8000 ≠ 0 then c1 ^^^ 2054 else c1
  c2 &&& 0xFFFFFF

/-- The checksum `send_file` computes over the file's bytes, accumulator
starting at 0 and bytes processed in file order. -/
def send_file_checksum (bytes : List Nat) : Nat :=
  bytes.foldl checksum_step 0

/-- Reference checksum step, worded as the specification states it: the byte
is added to the accumulator, then the accumulator is XORed with 2054 when bit
15 of the running value is set, then it is masked to 24 bits. -/
def spec_checksum_step (acc b : Nat) : Nat :=
  let s := acc + b
  (if Nat.testBit s 15 then s ^^^ 2054 else s) % 2 ^ 24

/-- Reference rolling checksum from the specification: fold
`spec_checksum_step` over the bytes in order, starting from 0. -/
def spec_checksum (bytes : List Nat) : Nat :=
  bytes.foldl spec_checksum_step 0

theorem and_0x8000_eq (n : Nat) : n &&& 0x8000 = (n.testBit 15).toNat * 0x8000 := by
  have h := Nat.and_two_pow n 15
  norm_num at h
  exact h

theorem and_0xFFFFFF_eq (n : Nat) : n &&& 0xFFFFFF = n % 2 ^ 24 := by
  have h := Nat.and_pow_two_sub_one_eq_mod n 24
  norm_num at h
  exact h

theorem checksum_step_eq_spec (a b : Nat) : checksum_step a b = spec_checksum_step a b := by
  unfold checksum_step spec_checksum_step
  rw [and_0xFFFFFF_eq, and_0x8000_eq]
  cases hb : (a + b).testBit 15 <;> simp [hb]

/-- C1: for every byte sequence, the 24-bit rolling checksum computed by
`send_file` coincides with the reference definition from the specification:
starting at 0, for every byte in order, add the byte, XOR the accumulator
with 2054 when bit 15 of the running value is set, then mask to 24 bits. -/
theorem send_file_checksum_correct (bytes : List Nat) :
    send_file_checksum bytes = spec_checksum bytes := by
  have hstep : checksum_step = spec_checksum_step :=
    funext fun a => funext fun b => checksum_step_eq_spec a b
  unfold send_file_checksum spec_checksum
  rw [hstep]

/-- `True` for ASCII hexadecimal digit characters, the character class of the
regex `[A-Fa-f0-9]` used to parse reply lines. -/
def isHexDigitChar (c : Char) : Bool :=
  (48 ≤ c.toNat && c.toNat ≤ 57) || (97 ≤ c.toNat && c.toNat ≤ 102) ||
    (65 ≤ c.toNat && c.toNat ≤ 70)

/-- Value of one hexadecimal digit character (0 on non-digits, unused). -/
def hexDigitVal (c : Char) : Nat :=
  if 48 ≤ c.toNat && c.toNat ≤ 57 then c.toNat - 48
  else if 97 ≤ c.toNat && c.toNat ≤ 102 then c.toNat - 87
  else if 65 ≤ c.toNat && c.toNat ≤ 70 then c.toNat - 55
  else 0

/-- Models `re.findall(r"[A-Fa-f0-9]{1,2}", s)`: scan left to right; at a hex
digit greedily take up to two consecutive digits as one token and resume after
the token; skip every other character. -/
def hexTokens : List Char → List (List Char)
  | [] => []
  | [c] => if isHexDigitChar c then [[c]] else []
  | c :: d :: rest2 =>
    if isHexDigitChar c then
      if isHexDigitChar d then [c, d] :: hexTokens rest2
      else [c] :: hexTokens (d :: rest2)
    else hexTokens (d :: rest2)

/-- `int(token, 16)` for a 1- or 2-digit hexadecimal token. -/
def tokenVal : List Char → Nat
  | [c] => hexDigitVal c
  | [c, d] => 16 * hexDigitVal c + hexDigitVal d
  | _ => 0

/-- The integers parsed from the 1-2-digit hex tokens of a line, in order:
the body of `_process_line` in `poll_i2c` and of the reply-parsing loop in
`_write_and_read_bytes_cmd`. -/
def hexTokenVals (s : List Char) : List Nat :=
  (hexTokens s).map tokenVal

/-- The hexadecimal digit character for `n < 16`, uppercase, as produced by
the format `"%02X"`. -/
def toHexDigitChar (n : Nat) : Char :=
  if n < 10 then Char.ofNat (48 + n) else Char.ofNat (55 + n)

/-- Models `f"{b:02X}"` for one byte value `b < 256`: exactly two uppercase
hexadecimal digits. -/
def byteHex (b : Nat) : List Char :=
  [toHexDigitChar (b / 16), toHexDigitChar (b % 16)]

/-- Models `" ".join(f"{b:02X}" for b in segment)`: two-digit uppercase hex,
space-separated. -/
def renderSegment : List Nat → List Char
  | [] => []
  | [b] => byteHex b
  | b :: rest => byteHex b ++ ' ' :: renderSegment rest

/-- Fuel-indexed helper for `chunks`; the fuel only bounds the recursion
depth and is irrelevant once it is at least the list length. -/
def chunksF (S : Nat) : Nat → List α → List (List α)
  | _, [] => []
  | 0, _ :: _ => []
  | fuel + 1, x :: rest =>
    if S = 0 then [] else (x :: rest).take S :: chunksF S fuel ((x :: rest).drop S)

/-- The segments `data[i : i + S]` for `i in range(0, len(data), S)`: the
chunking of the loop in `_write_and_read_bytes_cmd`. Python raises
`ValueError` on step 0; the `S = 0` branch is never used by the claims,
which all assume `S ≥ 1`. -/
def chunks (S : Nat) (data : List α) : List (List α) :=
  chunksF S data.length data

theorem chunksF_fuel_irrel (S : Nat) :
    ∀ (f1 f2 : Nat) (l : List α), l.length ≤ f1 → l.length ≤ f2 →
      chunksF S f1 l = chunksF S f2 l := by
  intro f1
  induction f1 with
  | zero =>
    intro f2 l hl _
    have hnil : l = [] := List.length_eq_zero.mp (Nat.le_zero.mp hl)
    subst hnil
    cases f2 <;> rfl
  | succ n ih =>
    intro f2 l h1 h2
    match l with
    | [] => cases f2 <;> rfl
    | x :: rest =>
      match f2 with
      | 0 => simp at h2
      | m + 1 =>
        simp only [chunksF]
        by_cases hS : S = 0
        · simp [hS]
        · simp only [hS, if_false]
          have hdrop : ((x :: rest).drop S).length ≤ n := by
            simp only [List.length_drop, List.length_cons]
            simp only [List.length_cons] at h1
            omega
          have hdrop2 : ((x :: rest).drop S).length ≤ m := by
            simp only [List.length_drop, List.length_cons]
            simp only [List.length_cons] at h2
            omega
          rw [ih m ((x :: rest).drop S) hdrop hdrop2]

theorem chunks_nil (S : Nat) : chunks S ([] : List α) = [] := rfl

theorem chunks_cons (S : Nat) (hS : S ≠ 0) (x : α) (rest : List α) :
    chunks S (x :: rest) = (x :: rest).take S :: chunks S ((x :: rest).drop S) := by
  show chunksF S (x :: rest).length (x :: rest) = _
  have hlen : (x :: rest).length = rest.length + 1 := List.length_cons x rest
  rw [hlen]
  simp only [chunksF, hS, if_false]
  have hdrop : ((x :: rest).drop S).length ≤ rest.length := by
    simp only [List.length_drop, List.length_cons]
    omega
  rw [chunksF_fuel_irrel S rest.length ((x :: rest).drop S).length _ hdrop le_rfl]
  rfl

/-- Oracle for the serial transport as used by `_write_and_read_bytes_cmd`:
for the n-th `self._serial.write(...)` call, `writeExn n` is the
`SerialException` it raises (if any) and `writeRet n` the byte count it
returns — the code discards that count; `readline n` is the n-th
`self._serial.readline().strip()` result, decoded. -/
structure WRTransport where
  writeExn : Nat → Option String
  writeRet : Nat → Nat
  readline : Nat → List Char

/-- The per-segment loop of `_write_and_read_bytes_cmd`, started at write
index `n`: build `f"{command}{str_hex_data}\n"`, write it (discarding the
returned count; an exception propagates), read one reply line, parse its hex
tokens into bytes. Returns the transcript of attempted writes and the
outcome. -/
def write_and_read_bytes_cmd_loop (t : WRTransport) (command : List Char) :
    Nat → List (List Nat) → List (List Char) × PyOutcome (List Nat)
  | _, [] => ([], .ok [])
  | n, seg :: rest =>
    let msg := command ++ renderSegment seg ++ ['\n']
    match t.writeExn n with
    | some e => ([msg], .exn e)
    | none =>
      let vals := hexTokenVals (t.readline n)
      match write_and_read_bytes_cmd_loop t command (n + 1) rest with
      | (tr, .ok acc) => (msg :: tr, .ok (vals ++ acc))
      | (tr, r) => (msg :: tr, r)

/-- `_write_and_read_bytes_cmd(command, data, data_segment_size)`: segment the
payload, send each segment as space-separated two-digit uppercase hex behind
the command prefix, read one reply line per segment and collect the parsed
bytes; always returns `Ok` unless a transport call raises. -/
def write_and_read_bytes_cmd (t : WRTransport) (command : List Char) (data : List Nat)
    (data_segment_size : Nat) : List (List Char) × PyOutcome (List Nat) :=
  write_and_read_bytes_cmd_loop t command 0 (chunks data_segment_size data)

/-- `_write_serial(data)`: write the bytes, fail with `Err` when the reported
count differs from the length, catch a raised `SerialException` into `Err`.
`writeResult` models `self._serial.write(data)`: `Except.error e` is a raised
`SerialException`, `Except.ok n` a returned count `n`. -/
def write_serial (dataLen : Nat) (writeResult : Except String Nat) : PyOutcome String :=
  match writeResult with
  | .error e => .err e
  | .ok n =>
    if n ≠ dataLen then
      .err ("Only wrote " ++ Nat.repr n ++ " of " ++ Nat.repr dataLen ++ " bytes.")
    else
      .ok ("Wrote " ++ Nat.repr n ++ " bytes successfully.")

theorem chunks_flatten (S : Nat) (hS : S ≠ 0) : ∀ (l : List α), (chunks S l).flatten = l
  | [] => by rw [chunks_nil]; rfl
  | x :: rest => by
    rw [chunks_cons S hS]
    simp only [List.flatten_cons]
    rw [chunks_flatten S hS ((x :: rest).drop S)]
    exact List.take_append_drop S (x :: rest)
termination_by l => l.length
decreasing_by simp only [List.length_drop, List.length_cons]; omega

theorem chunks_length (S : Nat) (hS : S ≠ 0) : ∀ (l : List α),
    (chunks S l).length = (l.length + S - 1) / S
  | [] => by
    rw [chunks_nil]
    simp only [List.length_nil, Nat.zero_add]
    rw [Nat.div_eq_of_lt (by omega)]
  | x :: rest => by
    rw [chunks_cons S hS]
    simp only [List.length_cons]
    rw [chunks_length S hS ((x :: rest).drop S)]
    simp only [List.length_drop, List.length_cons]
    have h1 : rest.length + 1 + S - 1 = rest.length + S := by omega
    rw [h1, Nat.add_div_right _ (Nat.pos_of_ne_zero hS)]
    by_cases hcmp : rest.length + 1 ≤ S
    · have e1 : rest.length + 1 - S = 0 := by omega
      rw [e1]
      rw [Nat.div_eq_of_lt (show 0 + S - 1 < S by omega)]
      rw [Nat.div_eq_of_lt (show rest.length < S by omega)]
    · have e1 : rest.length + 1 - S + S - 1 = rest.length - S + S := by omega
      rw [e1, Nat.add_div_right _ (Nat.pos_of_ne_zero hS)]
      congr 1
      have e2 : rest.length = rest.length - S + S := by omega
      conv_rhs => rw [e2]
      rw [Nat.add_div_right _ (Nat.pos_of_ne_zero hS)]
termination_by l => l.length
decreasing_by simp only [List.length_drop, List.length_cons]; omega

theorem chunks_sizes (S : Nat) (hS : S ≠ 0) : ∀ (l : List α), ∀ seg ∈ chunks S l, seg.length ≤ S
  | [] => by rw [chunks_nil]; intro seg h; cases h
  | x :: rest => by
    rw [chunks_cons S hS]
    intro seg hseg
    rcases List.mem_cons.mp hseg with h | h
    · subst h; exact List.length_take_le S (x :: rest)
    · exact chunks_sizes S hS ((x :: rest).drop S) seg h
termination_by l => l.length
decreasing_by simp only [List.length_drop, List.length_cons]; omega

/-- The reply bytes the loop of `_write_and_read_bytes_cmd` collects when no
call raises: for write indices `n, ..., n + k - 1`, the hex-token values of
each reply line, concatenated in order. -/
def repliesVals (t : WRTransport) : Nat → Nat → List Nat
  | _, 0 => []
  | n, k + 1 => hexTokenVals (t.readline n) ++ repliesVals t (n + 1) k

theorem write_and_read_bytes_cmd_loop_ok (t : WRTransport) (command : List Char)
    (hexn : ∀ n, t.writeExn n = none) :
    ∀ (n : Nat) (segs : List (List Nat)),
      write_and_read_bytes_cmd_loop t command n segs =
        (segs.map (fun seg => command ++ renderSegment seg ++ ['\n']),
         .ok (repliesVals t n segs.length)) := by
  intro n segs
  induction segs generalizing n with
  | nil => rfl
  | cons seg rest ih =>
    simp only [write_and_read_bytes_cmd_loop, hexn n]
    rw [ih (n + 1)]
    simp [repliesVals]

theorem isHexDigitChar_toHexDigitChar (n : Nat) (h : n < 16) :
    isHexDigitChar (toHexDigitChar n) = true := by
  interval_cases n <;> decide

theorem hexDigitVal_toHexDigitChar (n : Nat) (h : n < 16) :
    hexDigitVal (toHexDigitChar n) = n := by
  interval_cases n <;> decide

theorem hexTokens_pair (x y : Char) (l : List Char) (hx : isHexDigitChar x = true)
    (hy : isHexDigitChar y = true) : hexTokens (x :: y :: l) = [x, y] :: hexTokens l := by
  simp [hexTokens, hx, hy]

theorem hexTokens_space (l : List Char) : hexTokens (' ' :: l) = hexTokens l := by
  cases l <;> rfl

theorem hexTokenVals_renderSegment : ∀ (seg : List Nat), (∀ b ∈ seg, b < 256) →
    hexTokenVals (renderSegment seg) = seg
  | [], _ => rfl
  | [b], h => by
    have hb : b < 256 := h b (List.mem_singleton.mpr rfl)
    have h1 : b / 16 < 16 := by omega
    have h2 : b % 16 < 16 := by omega
    show hexTokenVals (byteHex b) = [b]
    unfold hexTokenVals byteHex
    rw [hexTokens_pair _ _ _ (isHexDigitChar_toHexDigitChar _ h1)
      (isHexDigitChar_toHexDigitChar _ h2)]
    simp only [List.map_cons, tokenVal, hexDigitVal_toHexDigitChar _ h1,
      hexDigitVal_toHexDigitChar _ h2, hexTokens, List.map_nil]
    have : 16 * (b / 16) + b % 16 = b := by omega
    rw [this]
  | b :: c :: rest, h => by
    have hb : b < 256 := h b (by simp)
    have h1 : b / 16 < 16 := by omega
    have h2 : b % 16 < 16 := by omega
    show hexTokenVals
      (toHexDigitChar (b / 16) :: toHexDigitChar (b % 16) :: ' ' :: renderSegment (c :: rest)) =
      b :: c :: rest
    unfold hexTokenVals
    rw [hexTokens_pair _ _ _ (isHexDigitChar_toHexDigitChar _ h1)
      (isHexDigitChar_toHexDigitChar _ h2)]
    rw [hexTokens_space]
    simp only [List.map_cons, tokenVal, hexDigitVal_toHexDigitChar _ h1,
      hexDigitVal_toHexDigitChar _ h2]
    have hval : 16 * (b / 16) + b % 16 = b := by omega
    rw [hval]
    have ih := hexTokenVals_renderSegment (c :: rest) (fun x hx => h x (List.mem_cons_of_mem b hx))
    unfold hexTokenVals at ih
    rw [ih]

/-- C5: for every segment size `S ≥ 1` and payload, `_write_and_read_bytes_cmd`
splits the payload into `ceil(N/S)` segments of at most `S` bytes kept in
original order, sends each as space-separated two-digit uppercase hex behind
the one-letter command tag plus newline, reads one reply line per segment,
and appends every parsed 1-2-digit hex token of each reply, in order, to the
result. -/
theorem write_and_read_bytes_cmd_correct (t : WRTransport) (tag : Char) (data : List Nat)
    (S : Nat) (hS : 1 ≤ S) (hexn : ∀ n, t.writeExn n = none) :
    (chunks S data).length = (data.length + S - 1) / S ∧
    (∀ seg ∈ chunks S data, seg.length ≤ S) ∧
    (chunks S data).flatten = data ∧
    (write_and_read_bytes_cmd t [tag, '\n'] data S).1 =
      (chunks S data).map (fun seg => tag :: '\n' :: (renderSegment seg ++ ['\n'])) ∧
    (write_and_read_bytes_cmd t [tag, '\n'] data S).2 =
      PyOutcome.ok (repliesVals t 0 (chunks S data).length) := by
  have hS0 : S ≠ 0 := by omega
  refine ⟨chunks_length S hS0 data, chunks_sizes S hS0 data, chunks_flatten S hS0 data, ?_, ?_⟩
  · unfold write_and_read_bytes_cmd
    rw [write_and_read_bytes_cmd_loop_ok t [tag, '\n'] hexn 0 (chunks S data)]
    rfl
  · unfold write_and_read_bytes_cmd
    rw [write_and_read_bytes_cmd_loop_ok t [tag, '\n'] hexn 0 (chunks S data)]

/-- A concrete exception-free transport used to instantiate the theorems:
every write succeeds (reporting 0 bytes, which the passthrough code ignores),
the first reply line is `"0A FF"`, later ones are `"1"`. -/
def testTransport : WRTransport :=
  ⟨fun _ => none, fun _ => 0, fun n => if n = 0 then ['0', 'A', ' ', 'F', 'F'] else ['1']⟩

/-- Witness for C5 at `tag = 's'`, `data = [0, 255, 16, 1, 2]`, `S = 2`. -/
theorem write_and_read_bytes_cmd_correct_witness :
    (chunks 2 [0, 255, 16, 1, 2]).length = ([0, 255, 16, 1, 2].length + 2 - 1) / 2 ∧
    ([0, 255] : List Nat).length ≤ 2 ∧
    (chunks 2 [0, 255, 16, 1, 2]).flatten = [0, 255, 16, 1, 2] ∧
    (write_and_read_bytes_cmd testTransport ['s', '\n'] [0, 255, 16, 1, 2] 2).1 =
      (chunks 2 [0, 255, 16, 1, 2]).map (fun seg => 's' :: '\n' :: (renderSegment seg ++ ['\n'])) ∧
    (write_and_read_bytes_cmd testTransport ['s', '\n'] [0, 255, 16, 1, 2] 2).2 =
      PyOutcome.ok (repliesVals testTransport 0 (chunks 2 [0, 255, 16, 1, 2]).length) :=
  ⟨(write_and_read_bytes_cmd_correct testTransport 's' [0, 255, 16, 1, 2] 2 (by decide)
      (fun _ => rfl)).1,
   (write_and_read_bytes_cmd_correct testTransport 's' [0, 255, 16, 1, 2] 2 (by decide)
      (fun _ => rfl)).2.1 [0, 255] (by decide),
   (write_and_read_bytes_cmd_correct testTransport 's' [0, 255, 16, 1, 2] 2 (by decide)
      (fun _ => rfl)).2.2.1,
   (write_and_read_bytes_cmd_correct testTransport 's' [0, 255, 16, 1, 2] 2 (by decide)
      (fun _ => rfl)).2.2.2.1,
   (write_and_read_bytes_cmd_correct testTransport 's' [0, 255, 16, 1, 2] 2 (by decide)
      (fun _ => rfl)).2.2.2.2⟩

/-- C6: decoding the hex encoding of any chunk — applying the reply-line hex
token parse to the rendered segment — reconstructs the chunk exactly, for
every payload of bytes and every positive segment size. -/
theorem hex_encode_decode_roundtrip (data : List Nat) (S : Nat) (hS : 1 ≤ S)
    (hdata : ∀ b ∈ data, b < 256) :
    ∀ chunk ∈ chunks S data, hexTokenVals (renderSegment chunk) = chunk := by
  intro chunk hchunk
  apply hexTokenVals_renderSegment
  intro b hb
  apply hdata
  rw [← chunks_flatten S (by omega) data]
  exact List.mem_flatten.mpr ⟨chunk, hchunk, hb⟩

/-- Witness for C6 at `data = [0, 171, 255]`, `S = 2`, chunk `[0, 171]`. -/
theorem hex_encode_decode_roundtrip_witness :
    hexTokenVals (renderSegment [0, 171]) = [0, 171] :=
  hex_encode_decode_roundtrip [0, 171, 255] 2 (by decide) (by decide) [0, 171] (by decide)

/-- A transport whose writes all report 0 bytes written and never raise. -/
def shortWriteTransport : WRTransport :=
  ⟨fun _ => none, fun _ => 0, fun _ => []⟩

/-- A transport whose first write raises a `SerialException`. -/
def raisingTransport : WRTransport :=
  ⟨fun _ => some "SerialException", fun _ => 0, fun _ => []⟩

/-- C7 counterexample: on the binary passthrough path, a short write (every
write reports 0 of the requested bytes) still produces `Ok`, not a framing
failure, and a raised transport exception escapes the operation instead of
becoming a failure result. -/
theorem passthrough_swallows_short_write :
    (write_and_read_bytes_cmd shortWriteTransport ['s', '\n'] [1, 2] 8).2 =
      PyOutcome.ok [] ∧
    (write_and_read_bytes_cmd raisingTransport ['s', '\n'] [1, 2] 8).2 =
      PyOutcome.exn "SerialException" :=
  ⟨rfl, rfl⟩

/-- C7 amended: `_write_serial` reports a short write as a framing `Err` and
catches a raised `SerialException` into `Err`; the binary passthrough helper
`_write_and_read_bytes_cmd` instead discards the count its writes return —
returning `Ok` whatever counts the transport reports — and catches nothing,
so a transport exception escapes as a raised exception. -/
theorem protocol_error_reporting (len n : Nat) (e : String) (t : WRTransport) (tag : Char)
    (d0 : Nat) (data : List Nat) (S : Nat) (hne : n ≠ len) (hS : S ≠ 0)
    (hexn : ∀ k, t.writeExn k = none) :
    write_serial len (Except.ok n) =
      PyOutcome.err ("Only wrote " ++ Nat.repr n ++ " of " ++ Nat.repr len ++ " bytes.") ∧
    write_serial len (Except.error e) = PyOutcome.err e ∧
    (write_and_read_bytes_cmd t [tag, '\n'] data S).2 =
      PyOutcome.ok (repliesVals t 0 (chunks S data).length) ∧
    (write_and_read_bytes_cmd ⟨fun _ => some e, t.writeRet, t.readline⟩ [tag, '\n']
      (d0 :: data) S).2 = PyOutcome.exn e := by
  refine ⟨?_, rfl, ?_, ?_⟩
  · unfold write_serial
    simp [hne]
  · unfold write_and_read_bytes_cmd
    rw [write_and_read_bytes_cmd_loop_ok t [tag, '\n'] hexn 0 (chunks S data)]
  · unfold write_and_read_bytes_cmd
    rw [chunks_cons S hS]
    rfl

/-- Witness for C7's amended statement at concrete values. -/
theorem protocol_error_reporting_witness :
    write_serial 4 (Except.ok 2) =
      PyOutcome.err ("Only wrote " ++ Nat.repr 2 ++ " of " ++ Nat.repr 4 ++ " bytes.") ∧
    write_serial 4 (Except.error "SerialException") = PyOutcome.err "SerialException" ∧
    (write_and_read_bytes_cmd testTransport ['s', '\n'] [7] 8).2 =
      PyOutcome.ok (repliesVals testTransport 0 (chunks 8 [7]).length) ∧
    (write_and_read_bytes_cmd ⟨fun _ => some "SerialException", testTransport.writeRet,
      testTransport.readline⟩ ['s', '\n'] (3 :: [7]) 8).2 = PyOutcome.exn "SerialException" :=
  protocol_error_reporting 4 2 "SerialException" testTransport 's' 3 [7] 8 (by decide)
    (by decide) (fun _ => rfl)

/-- The whitespace characters Python's `str.strip()` removes: space, tab,
newline, carriage return, vertical tab, form feed. -/
def isPyWhitespace (c : Char) : Bool :=
  c = ' ' || c = '\t' || c = '\n' || c = '\r' || c.toNat = 11 || c.toNat = 12

/-- Python `str.strip()`: drop whitespace from both ends. -/
def pyStrip (s : List Char) : List Char :=
  ((s.dropWhile isPyWhitespace).reverse.dropWhile isPyWhitespace).reverse

/-- Models `int(s, 16)` on device replies: an optional `0x`/`0X` prefix
followed by a nonempty run of hexadecimal digits (the signed and
underscore-separated literal forms never arise on this protocol and are not
modelled). `none` models a raised `ValueError`. -/
def pyIntHex (s : List Char) : Option Nat :=
  let core := match s with
    | '0' :: x :: rest => if x = 'x' || x = 'X' then rest else s
    | _ => s
  if core ≠ [] && core.all isHexDigitChar then
    some (core.foldl (fun acc c => 16 * acc + hexDigitVal c) 0)
  else none

/-- `get_all_io()`: send `"g\n"` through `_write_serial` (its failure is
returned as `Err`), read `(4 * 2) + 1` bytes, parse the stripped reply with
`int(·, 16)`. `writeResult` models the `self._serial.write` call inside
`_write_serial`; `read` models `self._serial.read`: applied to the requested
count, it yields either a raised `SerialException` (`Except.error`, caught
into `Err`) or whatever bytes arrived before the timeout. The `ValueError`
raised by `int(...)` on unparsable data is caught nowhere and escapes. -/
def get_all_io (writeResult : Except String Nat)
    (read : Nat → Except String (List Char)) : PyOutcome Nat :=
  match write_serial 2 writeResult with
  | .err e => .err e
  | .exn e => .exn e
  | .ok _ =>
    match read ((4 * 2) + 1) with
    | .error e => .err e
    | .ok data =>
      match pyIntHex (pyStrip data) with
      | some v => .ok v
      | none => .exn "ValueError"

/-- C4 counterexample: only the three bytes `"1A\n"` arrive before the
timeout — fewer than 9 — yet `get_all_io` returns `Ok 26`, not a failure;
and an unparsable reply raises an uncaught `ValueError` instead of producing
an error result. -/
theorem get_all_io_short_read_not_failure :
    get_all_io (Except.ok 2) (fun _ => Except.ok ['1', 'A', '\n']) = PyOutcome.ok 26 ∧
    ['1', 'A', '\n'].length < 9 ∧
    get_all_io (Except.ok 2) (fun _ => Except.ok ['z', 'q']) = PyOutcome.exn "ValueError" :=
  ⟨rfl, by decide, rfl⟩

/-- C4 amended: `get_all_io` sends `"g\n"` and requests 9 bytes; whatever
arrives is stripped and parsed as hexadecimal — `Ok` on any parse success
regardless of the count received, an uncaught `ValueError` on parse failure;
an error result arises only from a failed or raising write, or a
`SerialException` during the read. -/
theorem get_all_io_behavior (read : Nat → Except String (List Char)) (data : List Char)
    (e : String) (n v : Nat) (hn : n ≠ 2) (hdata : read ((4 * 2) + 1) = Except.ok data) :
    (pyIntHex (pyStrip data) = some v →
      get_all_io (Except.ok 2) read = PyOutcome.ok v) ∧
    (pyIntHex (pyStrip data) = none →
      get_all_io (Except.ok 2) read = PyOutcome.exn "ValueError") ∧
    get_all_io (Except.ok 2) (fun _ => Except.error e) = PyOutcome.err e ∧
    get_all_io (Except.error e) read = PyOutcome.err e ∧
    get_all_io (Except.ok n) read =
      PyOutcome.err ("Only wrote " ++ Nat.repr n ++ " of " ++ Nat.repr 2 ++ " bytes.") := by
  refine ⟨?_, ?_, rfl, rfl, ?_⟩
  · intro hv
    unfold get_all_io
    simp only [write_serial, ne_eq, not_true_eq_false, if_false, ite_false, hdata, hv]
  · intro hv
    unfold get_all_io
    simp only [write_serial, ne_eq, not_true_eq_false, if_false, ite_false, hdata, hv]
  · unfold get_all_io
    simp only [write_serial, ne_eq, hn, not_false_eq_true, if_true, ite_true]

/-- Witness for C4's amended statement: reply `"1A"` parses, reply `"zq"`
does not, and the three error-result cases at concrete oracles. -/
theorem get_all_io_behavior_witness :
    get_all_io (Except.ok 2) (fun _ => Except.ok ['1', 'A']) = PyOutcome.ok 26 ∧
    get_all_io (Except.ok 2) (fun _ => Except.ok ['z', 'q']) = PyOutcome.exn "ValueError" ∧
    get_all_io (Except.ok 2) (fun _ => Except.error "SerialException") =
      PyOutcome.err "SerialException" ∧
    get_all_io (Except.error "SerialException") (fun _ => Except.ok ['1', 'A']) =
      PyOutcome.err "SerialException" ∧
    get_all_io (Except.ok 0) (fun _ => Except.ok ['1', 'A']) =
      PyOutcome.err ("Only wrote " ++ Nat.repr 0 ++ " of " ++ Nat.repr 2 ++ " bytes.") :=
  ⟨(get_all_io_behavior (fun _ => Except.ok ['1', 'A']) ['1', 'A'] "SerialException" 0 26
      (by decide) rfl).1 rfl,
   (get_all_io_behavior (fun _ => Except.ok ['z', 'q']) ['z', 'q'] "SerialException" 0 26
      (by decide) rfl).2.1 rfl,
   (get_all_io_behavior (fun _ => Except.ok ['1', 'A']) ['1', 'A'] "SerialException" 0 26
      (by decide) rfl).2.2.1,
   (get_all_io_behavior (fun _ => Except.ok ['1', 'A']) ['1', 'A'] "SerialException" 0 26
      (by decide) rfl).2.2.2.1,
   (get_all_io_behavior (fun _ => Except.ok ['1', 'A']) ['1', 'A'] "SerialException" 0 26
      (by decide) rfl).2.2.2.2⟩

/-- The Python comprehension
`[addr_un + addr_ln for addr_ln, found in enumerate(addresses[1:]) if found != 0]`
of `poll_i2c`, with `base = addr_un` and `k` the running `enumerate` index. -/
def scan_offsets (base : Nat) : Nat → List Nat → List Nat
  | _, [] => []
  | k, v :: rest =>
    if v ≠ 0 then (base + k) :: scan_offsets base (k + 1) rest
    else scan_offsets base (k + 1) rest

/-- The read loop of `poll_i2c` after the header line was skipped: each line
is stripped and parsed into hex-token values `base :: tail`; nonzero entries
of `tail` contribute `base + index`; `addresses[0]` on a line with no token
raises `IndexError`. `lines` are the nonempty lines `readline` yields before
the stream ends; `acc` is `found_addresses`. -/
def poll_lines : List (List Char) → List Nat → PyOutcome (List Nat)
  | [], acc => .ok acc
  | l :: rest, acc =>
    match hexTokenVals (pyStrip l) with
    | [] => .exn "IndexError"
    | base :: tail => poll_lines rest (acc ++ scan_offsets base 0 tail)

/-- `poll_i2c()`: send `"p\n"` through `_write_serial`, skip the first reply
line, scan the remaining lines for nonzero bus addresses. -/
def poll_i2c (writeResult : Except String Nat) (lines : List (List Char)) :
    PyOutcome (List Nat) :=
  match write_serial 2 writeResult with
  | .err e => .err e
  | .exn e => .exn e
  | .ok _ =>
    match lines with
    | [] => .ok []
    | _ :: body => poll_lines body []

/-- The addresses the specification ascribes to one reply line of the bus
scan, its tokens being `base :: tail`: `base + k` for every position `k` in
`tail` whose value is nonzero. -/
def spec_scan_line (tokens : List Nat) : List Nat :=
  match tokens with
  | [] => []
  | base :: tail =>
    (List.range tail.length).filterMap fun k =>
      if tail.getD k 0 ≠ 0 then some (base + k) else none

theorem scan_offsets_eq_spec (tail : List Nat) :
    ∀ (k base : Nat), scan_offsets base k tail =
      (List.range tail.length).filterMap fun j =>
        if tail.getD j 0 ≠ 0 then some (base + k + j) else none := by
  induction tail with
  | nil => intro k base; rfl
  | cons v rest ih =>
    intro k base
    simp only [scan_offsets, List.length_cons, List.range_succ_eq_map, List.filterMap_cons,
      List.getD_cons_zero, List.filterMap_map, Function.comp, List.getD_cons_succ,
      Nat.add_zero]
    rw [ih (k + 1) base]
    have harith : ∀ j : Nat, base + (k + 1) + j = base + k + (j + 1) := fun j => by omega
    simp only [harith, Nat.succ_eq_add_one]
    by_cases hv : v = 0
    · simp [hv, Function.comp_def]
    · simp [hv, Function.comp_def]

theorem poll_lines_eq (lines : List (List Char)) :
    ∀ acc, (∀ l ∈ lines, hexTokenVals (pyStrip l) ≠ []) →
      poll_lines lines acc = PyOutcome.ok (acc ++
        (lines.map fun l => spec_scan_line (hexTokenVals (pyStrip l))).flatten) := by
  induction lines with
  | nil => intro acc _; simp [poll_lines]
  | cons l rest ih =>
    intro acc h
    have hl : hexTokenVals (pyStrip l) ≠ [] := h l (List.mem_cons_self l rest)
    cases htoks : hexTokenVals (pyStrip l) with
    | nil => exact absurd htoks hl
    | cons base tail =>
      simp only [poll_lines, htoks]
      rw [ih _ (fun x hx => h x (List.mem_cons_of_mem l hx))]
      simp only [List.map_cons, List.flatten_cons, htoks, spec_scan_line]
      rw [scan_offsets_eq_spec tail 0 base]
      simp only [Nat.add_zero, List.append_assoc]

/-- C3: `poll_i2c` discards the first reply line; every later line is parsed
into hex tokens `base :: tail` and contributes `base + k` for every position
`k` of `tail` holding a nonzero value; on the reply lines
`["header", "10 00 01 00"]` it returns exactly the single address `0x11`. -/
theorem poll_i2c_correct (header : List Char) (body : List (List Char))
    (hbody : ∀ l ∈ body, hexTokenVals (pyStrip l) ≠ []) :
    poll_i2c (Except.ok 2) (header :: body) =
      PyOutcome.ok ((body.map fun l => spec_scan_line (hexTokenVals (pyStrip l))).flatten) ∧
    poll_i2c (Except.ok 2)
      [['h', 'e', 'a', 'd', 'e', 'r'], ['1', '0', ' ', '0', '0', ' ', '0', '1', ' ', '0', '0']] =
      PyOutcome.ok [0x11] := by
  constructor
  · have hstep : poll_i2c (Except.ok 2) (header :: body) = poll_lines body [] := rfl
    rw [hstep, poll_lines_eq body [] hbody]
    simp only [List.nil_append]
  · rfl

/-- Witness for C3 at body line `"10 00 01 00"`. -/
theorem poll_i2c_correct_witness :
    poll_i2c (Except.ok 2)
      (['h', 'e', 'a', 'd', 'e', 'r'] ::
        [['1', '0', ' ', '0', '0', ' ', '0', '1', ' ', '0', '0']]) =
      PyOutcome.ok
        (([['1', '0', ' ', '0', '0', ' ', '0', '1', ' ', '0', '0']].map
          fun l => spec_scan_line (hexTokenVals (pyStrip l))).flatten) ∧
    poll_i2c (Except.ok 2)
      [['h', 'e', 'a', 'd', 'e', 'r'], ['1', '0', ' ', '0', '0', ' ', '0', '1', ' ', '0', '0']] =
      PyOutcome.ok [0x11] :=
  poll_i2c_correct ['h', 'e', 'a', 'd', 'e', 'r']
    [['1', '0', ' ', '0', '0', ' ', '0', '1', ' ', '0', '0']] (by decide)

/-- ASCII encoding of a command string, as `.encode("ascii")` produces. -/
def asciiBytes (s : List Char) : List Nat := s.map Char.toNat

/-- `byte.decode()` for a single-byte `bytes` value. -/
def byteDecode (b : Nat) : List Char := [Char.ofNat b]

/-- Environment of one `send_file(source_file, target_name)` call: the local
file system (existence and bytes of the source), the operands, `str(self)`
for the messages, and the serial-write oracles. `headerWrite` models the
`self._serial.write` call inside `_write_serial` for the header;
`payloadWrite k` models the raw `self._serial.write(byte)` for the k-th
payload byte (`Except.error` is a raised `SerialException`, which nothing in
`send_file` catches). -/
structure SendFileEnv where
  srcPath : List Char
  fileExists : Bool
  content : List Nat
  target : List Char
  selfStr : List Char
  headerWrite : Except String Nat
  payloadWrite : Nat → Except String Nat

/-- The header line `f"x\nf\n{target_name} {fsize} {checksum}\n"`. -/
def send_file_header (env : SendFileEnv) : List Char :=
  'x' :: '\n' :: 'f' :: '\n' :: (env.target ++ ' ' ::
    ((Nat.repr env.content.length).data ++ ' ' ::
      ((Nat.repr (send_file_checksum env.content)).data ++ ['\n'])))

/-- The message returned on success. -/
def send_file_ok_msg (env : SendFileEnv) : String :=
  String.mk ("Downloaded ".data ++ env.srcPath ++ " (".data ++
    (Nat.repr env.content.length).data ++ " bytes) as ".data ++ env.target ++
    " to ".data ++ env.selfStr)

/-- The payload loop of `send_file`, from byte index `k`: write one byte at a
time; when a write reports a count other than 1 return
`Err(f"Failed to write {byte.decode()} to {self}")`; a raised exception
escapes. Returns the transcript of payload writes and the outcome. -/
def send_file_payload (env : SendFileEnv) : Nat → List Nat → List (List Nat) × PyOutcome String
  | _, [] => ([], .ok (send_file_ok_msg env))
  | k, b :: rest =>
    match env.payloadWrite k with
    | .error e => ([[b]], .exn e)
    | .ok m =>
      if m ≠ 1 then
        ([[b]], .err (String.mk ("Failed to write ".data ++ byteDecode b ++ " to ".data ++
          env.selfStr)))
      else
        let r := send_file_payload env (k + 1) rest
        ([b] :: r.1, r.2)

/-- `send_file`: fail when the source does not exist, compute size and
checksum over the whole file, drain the input buffer, send the header
through `_write_serial`, sleep, then stream the file byte-by-byte. Returns
the transcript of serial writes (the `read_all` drain writes nothing) and
the outcome. -/
def send_file (env : SendFileEnv) : List (List Nat) × PyOutcome String :=
  if env.fileExists = false then
    ([], .err (String.mk (env.srcPath ++ (" does not exist.").data)))
  else
    let header := send_file_header env
    match write_serial header.length env.headerWrite with
    | .err e => ([asciiBytes header], .err e)
    | .exn e => ([asciiBytes header], .exn e)
    | .ok _ =>
      let r := send_file_payload env 0 env.content
      (asciiBytes header :: r.1, r.2)

/-- Concrete `send_file` environment whose second payload write is short:
file `"f"` containing the two bytes `"AA"`, device string `"FW"`. -/
def c2Env : SendFileEnv :=
  ⟨['f'], true, [65, 65], ['T'], ['F', 'W'], Except.ok 12,
    fun k => if k = 0 then Except.ok 1 else Except.ok 0⟩

/-- C2 counterexample: the payload write at offset 1 is short; `send_file`
aborts with `Err "Failed to write A to FW"` — the message names the failing
byte and contains no digit `1` (nor any digit), so the failing offset is not
reported. -/
theorem send_file_reports_byte_not_offset :
    (send_file c2Env).2 = PyOutcome.err "Failed to write A to FW" ∧
    ('1' ∈ "Failed to write A to FW".data) = False := by
  constructor
  · rfl
  · simp only [eq_iff_iff, iff_false]
    decide

theorem send_file_payload_short (env : SendFileEnv) :
    ∀ (bytes : List Nat) (k0 k m : Nat), k < bytes.length →
      (∀ j, j < k → env.payloadWrite (k0 + j) = Except.ok 1) →
      env.payloadWrite (k0 + k) = Except.ok m → m ≠ 1 →
      send_file_payload env k0 bytes =
        ((bytes.take (k + 1)).map (fun b => [b]),
         PyOutcome.err (String.mk ("Failed to write ".data ++ byteDecode (bytes.getD k 0) ++
           " to ".data ++ env.selfStr))) := by
  intro bytes
  induction bytes with
  | nil => intro k0 k m hk; simp at hk
  | cons b rest ih =>
    intro k0 k m hk hok hfail hm
    match k with
    | 0 =>
      simp only [Nat.add_zero] at hfail
      simp only [send_file_payload, hfail, hm, if_true, List.take_succ_cons, List.take_zero,
        List.map_cons, List.map_nil, List.getD_cons_zero]
      simp [hm]
    | j + 1 =>
      have h0 : env.payloadWrite (k0 + 0) = Except.ok 1 := hok 0 (by omega)
      simp only [Nat.add_zero] at h0
      simp only [send_file_payload, h0]
      have hok' : ∀ i, i < j → env.payloadWrite (k0 + 1 + i) = Except.ok 1 := by
        intro i hi
        have := hok (i + 1) (by omega)
        have harith : k0 + (i + 1) = k0 + 1 + i := by omega
        rwa [harith] at this
      have hfail' : env.payloadWrite (k0 + 1 + j) = Except.ok m := by
        have harith : k0 + (j + 1) = k0 + 1 + j := by omega
        rwa [harith] at hfail
      rw [ih (k0 + 1) j m (by simp at hk; omega) hok' hfail' hm]
      simp [List.take_succ_cons]

/-- C2 amended: with an existing source and a fully accepted header write,
`send_file` writes the header line
`x\nf\n{name} {size} {checksum}\n` — checksum per the documented rolling
algorithm over the whole file — before any payload byte, and when the first
short payload write happens at offset `k` it aborts immediately (no later
byte is written) with a failure result that reports the failing byte (not
the offset). -/
theorem send_file_header_then_abort (env : SendFileEnv) (k m : Nat)
    (hex : env.fileExists = true)
    (hheader : env.headerWrite = Except.ok (send_file_header env).length)
    (hk : k < env.content.length)
    (hok : ∀ j, j < k → env.payloadWrite j = Except.ok 1)
    (hfail : env.payloadWrite k = Except.ok m) (hm : m ≠ 1) :
    send_file_header env =
      'x' :: '\n' :: 'f' :: '\n' :: (env.target ++ ' ' ::
        ((Nat.repr env.content.length).data ++ ' ' ::
          ((Nat.repr (spec_checksum env.content)).data ++ ['\n']))) ∧
    (send_file env).1 =
      asciiBytes (send_file_header env) :: (env.content.take (k + 1)).map (fun b => [b]) ∧
    (send_file env).2 = PyOutcome.err (String.mk ("Failed to write ".data ++
      byteDecode (env.content.getD k 0) ++ " to ".data ++ env.selfStr)) := by
  have hchk : send_file_checksum = spec_checksum := by
    funext bytes
    unfold send_file_checksum spec_checksum
    rw [funext fun a => funext fun b => checksum_step_eq_spec a b]
  have hpay := send_file_payload_short env env.content 0 k m hk
    (by intro j hj; simpa using hok j hj) (by simpa using hfail) hm
  refine ⟨?_, ?_, ?_⟩
  · rw [← hchk]
    rfl
  · unfold send_file
    rw [hex]
    simp only [Bool.true_eq_false, if_false, hheader, write_serial, ne_eq, not_true_eq_false,
      ite_false, hpay]
  · unfold send_file
    rw [hex]
    simp only [Bool.true_eq_false, if_false, hheader, write_serial, ne_eq, not_true_eq_false,
      ite_false, hpay]

/-- Witness for C2's amended statement on the concrete environment. -/
theorem send_file_header_then_abort_witness :
    send_file_header c2Env =
      'x' :: '\n' :: 'f' :: '\n' :: (c2Env.target ++ ' ' ::
        ((Nat.repr c2Env.content.length).data ++ ' ' ::
          ((Nat.repr (spec_checksum c2Env.content)).data ++ ['\n']))) ∧
    (send_file c2Env).1 =
      asciiBytes (send_file_header c2Env) :: (c2Env.content.take (1 + 1)).map (fun b => [b]) ∧
    (send_file c2Env).2 = PyOutcome.err (String.mk ("Failed to write ".data ++
      byteDecode (c2Env.content.getD 1 0) ++ " to ".data ++ c2Env.selfStr)) :=
  send_file_header_then_abort c2Env 1 0 rfl rfl (by decide)
    (by intro j hj; interval_cases j; rfl) rfl (by decide)

/-- C10: when the source file does not exist, `send_file` returns a failure
result without writing any byte to the serial transport. -/
theorem send_file_missing_source (env : SendFileEnv) (h : env.fileExists = false) :
    send_file env = ([], PyOutcome.err (String.mk (env.srcPath ++ (" does not exist.").data))) := by
  unfold send_file
  rw [h]
  rfl

/-- Witness for C10: a nonexistent source named `"g"`. -/
theorem send_file_missing_source_witness :
    send_file ⟨['g'], false, [], ['T'], ['F', 'W'], Except.ok 0, fun _ => Except.ok 1⟩ =
      ([], PyOutcome.err (String.mk (['g'] ++ (" does not exist.").data))) :=
  send_file_missing_source ⟨['g'], false, [], ['T'], ['F', 'W'], Except.ok 0, fun _ => Except.ok 1⟩
    rfl

/-- A serial-port action of the bootloader reset sequence, recorded together
with the baud rate in force when it runs. -/
inductive SerEvent where
  | closePort (baud : Nat)
  | openPort (baud : Nat)
  deriving DecidableEq, Repr

/-- The tail of the `try` block of `reset_to_uf2_bootloader` after the
close-or-set-port step: `self._serial.baudrate = 1200`, `open()`, sleep,
`close()`; `e2`/`e3` are the `SerialException`s `open`/`close` may raise,
caught into `Err`. Returns the events after `pre`, the baud rate as the
`try`/`except` leaves it, and the outcome before `finally` runs. -/
def reset_sequence (e2 e3 : Option String) (pre : List SerEvent) :
    List SerEvent × Nat × PyOutcome Unit :=
  match e2 with
  | some e => (pre ++ [SerEvent.openPort 1200], 1200, .err e)
  | none =>
    match e3 with
    | some e => (pre ++ [SerEvent.openPort 1200, SerEvent.closePort 1200], 1200, .err e)
    | none => (pre ++ [SerEvent.openPort 1200, SerEvent.closePort 1200], 1200, .ok ())

/-- The `try`/`except` part of `reset_to_uf2_bootloader`: when the port is
open, close it first (`e1` its possible `SerialException`); otherwise only
assign the port name. -/
def reset_try (isOpen : Bool) (b0 : Nat) (e1 e2 e3 : Option String) :
    List SerEvent × Nat × PyOutcome Unit :=
  if isOpen then
    match e1 with
    | some e => ([SerEvent.closePort b0], b0, .err e)
    | none => reset_sequence e2 e3 [SerEvent.closePort b0]
  else
    reset_sequence e2 e3 []

/-- `reset_to_uf2_bootloader()`: record the original baud rate, run the
`try`/`except` body, then the `finally` block assigns the original baud rate
back whatever happened. Returns the event trace, the final baud rate, and
the outcome. -/
def reset_to_uf2_bootloader (isOpen : Bool) (b0 : Nat) (e1 e2 e3 : Option String) :
    List SerEvent × Nat × PyOutcome Unit :=
  let original_baudrate := b0
  let r := reset_try isOpen b0 e1 e2 e3
  (r.1, original_baudrate, r.2.2)

/-- C8: the bootloader reset opens the port at the magic baud rate 1200 —
whenever the sequence reaches the open call, the open event carries baud
1200, and no open ever happens at another rate — and on every exit path,
success or failure, the final baud rate equals the original one. -/
theorem reset_to_uf2_bootloader_correct (isOpen : Bool) (b0 : Nat)
    (e1 e2 e3 : Option String) :
    (reset_to_uf2_bootloader isOpen b0 e1 e2 e3).2.1 = b0 ∧
    (∀ b, SerEvent.openPort b ∈ (reset_to_uf2_bootloader isOpen b0 e1 e2 e3).1 → b = 1200) ∧
    ((isOpen = false ∨ e1 = none) →
      SerEvent.openPort 1200 ∈ (reset_to_uf2_bootloader isOpen b0 e1 e2 e3).1) := by
  refine ⟨rfl, ?_, ?_⟩
  · intro b hb
    cases isOpen <;> cases e1 <;> cases e2 <;> cases e3 <;>
      simp [reset_to_uf2_bootloader, reset_try, reset_sequence] at hb <;>
      omega
  · intro h
    cases isOpen <;> cases e2 <;> cases e3 <;> rcases h with h | h <;>
      simp_all [reset_to_uf2_bootloader, reset_try, reset_sequence]

/-- Witness for C8 at an open port with original baud 115200 and no
exception. -/
theorem reset_to_uf2_bootloader_correct_witness :
    (reset_to_uf2_bootloader true 115200 none none none).2.1 = 115200 ∧
    SerEvent.openPort 1200 ∈ (reset_to_uf2_bootloader true 115200 none none none).1 :=
  ⟨(reset_to_uf2_bootloader_correct true 115200 none none none).1,
   (reset_to_uf2_bootloader_correct true 115200 none none none).2.2 (Or.inr rfl)⟩

/-- Processor type of the FreeWili, from the firmware banner. -/
inductive FreeWiliProcessorType where
  | Unknown
  | Main
  | Display
  deriving DecidableEq, Repr

/-- Information of the FreeWili application: processor type and version. -/
structure FreeWiliAppInfo where
  processor_type : FreeWiliProcessorType
  version : Nat
  deriving DecidableEq, Repr

/-- The fields `find_all` reads from one enumerated comport. -/
structure PortInfo where
  device : List Char
  serial_number : List Char
  location : List Char
  vid : Nat
  pid : Nat
  deriving DecidableEq, Repr

/-- Raspberry Pi Vendor ID. -/
def RPI_VID : Nat := 0x2E8A

/-- Raspberry Pi Pico SDK CDC UART Product ID. -/
def RPI_CDC_PID : Nat := 0x000A

/-- The descriptor `find_all` builds for one matching port. -/
structure FreeWiliSerialInfo where
  port : List Char
  serial : List Char
  app_info : FreeWiliAppInfo
  location : List Char
  vid : Nat
  pid : Nat
  deriving DecidableEq, Repr

/-- One iteration of the `find_all` port loop: skip ports whose VID/PID pair
is not the FreeWili one; append a descriptor classified `Unknown`/0; when
`get_app_info().unwrap()` succeeds replace the descriptor's info with the
parsed one and `pop()` it again if a processor-type filter is given and does
not match; when it raises, the exception is printed and swallowed and the
`Unknown` descriptor stays. `pr.2` models the outcome of
`get_app_info().unwrap()` for the port. -/
def find_all_step (processor_type : Option FreeWiliProcessorType)
    (devices : List FreeWiliSerialInfo)
    (pr : PortInfo × Except String FreeWiliAppInfo) : List FreeWiliSerialInfo :=
  let p := pr.1
  if p.vid = RPI_VID && p.pid = RPI_CDC_PID then
    match pr.2 with
    | .error _ =>
      devices ++ [⟨p.device, p.serial_number, ⟨FreeWiliProcessorType.Unknown, 0⟩,
        p.location, p.vid, p.pid⟩]
    | .ok app_info =>
      let upd := devices ++ [⟨p.device, p.serial_number, app_info, p.location, p.vid, p.pid⟩]
      match processor_type with
      | some t => if app_info.processor_type ≠ t then devices else upd
      | none => upd
  else devices

/-- `find_all(processor_type)`: fold the port loop over the enumerated
candidates, starting from the empty device list. -/
def find_all (ports : List (PortInfo × Except String FreeWiliAppInfo))
    (processor_type : Option FreeWiliProcessorType) : List FreeWiliSerialInfo :=
  ports.foldl (find_all_step processor_type) []

/-- A matching candidate port. -/
def samplePort : PortInfo :=
  ⟨"COM3".data, "SER1".data, "1-2".data, 0x2E8A, 0x000A⟩

/-- C9 counterexample: filtering for `Main`, a matching candidate whose
banner read raises stays in the result classified `Unknown` — the returned
tuple contains a descriptor whose role differs from the requested one. -/
theorem find_all_filter_keeps_banner_failures :
    (find_all [(samplePort, Except.error "TimeoutError")]
      (some FreeWiliProcessorType.Main)).map (fun d => d.app_info.processor_type) =
      [FreeWiliProcessorType.Unknown] ∧
    FreeWiliProcessorType.Unknown ≠ FreeWiliProcessorType.Main :=
  ⟨rfl, by decide⟩

theorem find_all_step_invariant (t : FreeWiliProcessorType)
    (acc : List FreeWiliSerialInfo) (pr : PortInfo × Except String FreeWiliAppInfo)
    (h : ∀ d ∈ acc, d.app_info.processor_type = t ∨
      d.app_info = ⟨FreeWiliProcessorType.Unknown, 0⟩) :
    ∀ d ∈ find_all_step (some t) acc pr, d.app_info.processor_type = t ∨
      d.app_info = ⟨FreeWiliProcessorType.Unknown, 0⟩ := by
  intro d hd
  unfold find_all_step at hd
  by_cases hmatch : pr.1.vid = RPI_VID && pr.1.pid = RPI_CDC_PID
  · rw [if_pos hmatch] at hd
    match hres : pr.2 with
    | .error e =>
      rw [hres] at hd
      rcases List.mem_append.mp hd with hmem | hmem
      · exact h d hmem
      · right
        rw [List.mem_singleton.mp hmem]
    | .ok app_info =>
      rw [hres] at hd
      simp only at hd
      by_cases hne : app_info.processor_type ≠ t
      · rw [if_pos hne] at hd
        exact h d hd
      · rw [if_neg hne] at hd
        rcases List.mem_append.mp hd with hmem | hmem
        · exact h d hmem
        · left
          rw [List.mem_singleton.mp hmem]
          simpa using hne
  · rw [if_neg hmatch] at hd
    exact h d hd

/-- C9 amended: with a processor-role filter, every returned descriptor
either has the requested role (its banner read succeeded and matched) or is
classified `Unknown`/0 because its banner read raised; role-mismatching
candidates whose banner read succeeded are excluded. -/
theorem find_all_filter_roles (ports : List (PortInfo × Except String FreeWiliAppInfo))
    (t : FreeWiliProcessorType) :
    ∀ d ∈ find_all ports (some t), d.app_info.processor_type = t ∨
      d.app_info = ⟨FreeWiliProcessorType.Unknown, 0⟩ := by
  unfold find_all
  generalize hacc : ([] : List FreeWiliSerialInfo) = acc
  have hbase : ∀ d ∈ acc, d.app_info.processor_type = t ∨
      d.app_info = ⟨FreeWiliProcessorType.Unknown, 0⟩ := by
    rw [← hacc]
    intro d hd
    cases hd
  clear hacc
  induction ports generalizing acc with
  | nil => exact hbase
  | cons pr rest ih =>
    simp only [List.foldl_cons]
    exact ih (find_all_step (some t) acc pr) (find_all_step_invariant t acc pr hbase)

/-- Witness for C9's amended statement: one successful `Main` banner and one
raising banner under a `Main` filter. -/
theorem find_all_filter_roles_witness :
    (⟨"COM3".data, "SER1".data, ⟨FreeWiliProcessorType.Main, 12⟩, "1-2".data, 0x2E8A,
      0x000A⟩ : FreeWiliSerialInfo).app_info.processor_type = FreeWiliProcessorType.Main ∨
    (⟨"COM3".data, "SER1".data, ⟨FreeWiliProcessorType.Main, 12⟩, "1-2".data, 0x2E8A,
      0x000A⟩ : FreeWiliSerialInfo).app_info =
      ⟨FreeWiliProcessorType.Unknown, 0⟩ :=
  find_all_filter_roles
    [(samplePort, Except.ok ⟨FreeWiliProcessorType.Main, 12⟩),
     (samplePort, Except.error "TimeoutError")]
    FreeWiliProcessorType.Main
    ⟨"COM3".data, "SER1".data, ⟨FreeWiliProcessorType.Main, 12⟩, "1-2".data, 0x2E8A, 0x000A⟩
    (by decide)

end FreeWili
